import Mathlib

/-!
Verification of the voice-comparison service (src/main.py and src/app/app.py)
against its natural-language specification.

Modelling conventions, used throughout:
* Python/NumPy floating-point values are embedded as exact rationals where the
  code only does arithmetic and comparisons, and as real numbers where a square
  root is involved.  IEEE NaN (which arises in the code only from 0/0 in the
  cosine similarity) is modelled explicitly as the value `none` of an
  `Option` type; a finite float is `some x`.
* File-system effects are modelled by explicit state passing: a `FS` value
  records the next fresh temporary-file id and the list of temporary files
  currently existing on disk together with the number of bytes written to each.
* Calls into external capabilities (librosa, ffmpeg, resemblyzer) are not code
  of this repository; each such call site takes the capability result as an
  explicit argument (for example an `FfmpegOutcome` standing for what
  subprocess.run observed of the ffmpeg child process).
* Python exceptions are embedded as `Except` values; `PyErr.httpExc s` is a
  fastapi `HTTPException(status_code = s)` and `PyErr.fileNotFound` is the
  `FileNotFoundError` raised by `os.remove` on a missing path.
-/

/-- Constant MAX_UPLOAD_MB, src/main.py line 28. -/
def MAX_UPLOAD_MB : ℕ := 20

/-- Constant MAX_UPLOAD_DURATION_SEC, src/main.py line 29. -/
def MAX_UPLOAD_DURATION_SEC : ℕ := 60

/-- Constant SUBPROCESS_TIMEOUT, src/main.py line 30. -/
def SUBPROCESS_TIMEOUT : ℕ := 120

/-- The metrics dictionary built by analyze_audio, src/main.py lines 106-114.
Fields are the Python float values, embedded as rationals. -/
structure AcousticMetrics where
  duration_sec : ℚ
  speech_ratio : ℚ
  pause_ratio : ℚ
  mean_pitch : ℚ
  pitch_variation : ℚ
  mean_energy : ℚ
  energy_variation : ℚ
deriving Repr, DecidableEq

/-- The dictionary returned by rate_suspicion, src/main.py line 133. -/
structure SuspicionAssessment where
  suspicion : String
  flags : List String
deriving Repr, DecidableEq

/-- Function rate_suspicion, src/main.py lines 118-133: three independent
threshold rules append flags in a fixed order, then the suspicion level is
chosen from the flag count alone. -/
def rate_suspicion (metrics : AcousticMetrics) : SuspicionAssessment :=
  let flags : List String :=
    (if metrics.speech_ratio < 0.4 ∨ metrics.speech_ratio > 0.95 then
      ["Unnatural speech/pause ratio"] else [])
    ++ (if metrics.pitch_variation < 10 then
      ["Monotone pitch (possible synthetic)"] else [])
    ++ (if metrics.energy_variation < 1e-5 then
      ["Flat energy (possible normalization)"] else [])
  let suspicion : String :=
    if flags.length = 0 then "Low"
    else if flags.length = 1 then "Medium"
    else "High"
  { suspicion := suspicion, flags := flags }

/-- Arithmetic mean as computed by np.mean, src/main.py line 103 (the empty
list, which numpy maps to NaN, does not occur for the claims below; Lean's
division by zero gives 0 there). -/
def npMean (l : List ℚ) : ℚ := l.sum / l.length

/-- Population variance as computed by np.var, src/main.py line 104. -/
def npVar (l : List ℚ) : ℚ :=
  (l.map (fun x => (x - npMean l) ^ 2)).sum / l.length

/-- Function analyze_audio, src/main.py lines 86-115.  The external librosa
calls are taken as arguments: `duration` is librosa.get_duration (line 89),
`sr` is the sample rate returned by librosa.load (16000, line 87), `intervals`
is librosa.effects.split (line 90), `pitchOutcome` is the result of the
try-block around librosa.yin (lines 95-100, `none` when the estimator raised,
otherwise `some (nanmean f0, nanstd f0)`), and `rms` is
librosa.feature.rms (line 102).  Returns the merged metrics-and-assessment
dictionary of line 115. -/
def analyze_audio (duration : ℚ) (sr : ℚ) (intervals : List (ℕ × ℕ))
    (pitchOutcome : Option (ℚ × ℚ)) (rms : List ℚ) :
    AcousticMetrics × SuspicionAssessment :=
  let speech_durations := intervals.map (fun se => ((se.2 : ℚ) - (se.1 : ℚ)) / sr)
  let total_speech := speech_durations.sum
  let pause_ratio := if duration > 0 then (duration - total_speech) / duration else 0
  let pitch := match pitchOutcome with
    | some p => p
    | none => (0, 0)
  let metrics : AcousticMetrics :=
    { duration_sec := duration
      speech_ratio := if duration > 0 then total_speech / duration else 0
      pause_ratio := pause_ratio
      mean_pitch := pitch.1
      pitch_variation := pitch.2
      mean_energy := npMean rms
      energy_variation := npVar rms }
  (metrics, rate_suspicion metrics)

/-- Verdict string computed by the frontend overlay, src/main.py line 270:
data.similarity greater than 0.9 gives the great-match label, else greater
than 0.7 gives the middle label, else the no-match label. -/
def overlay_verdict (similarity : ℚ) : String :=
  if similarity > 0.9 then "✅ Great match"
  else if similarity > 0.7 then "⚠️ Voice match"
  else "❌ No match"

/-- Python exceptions that escape the modelled functions. -/
inductive PyErr
  | httpExc (status : ℕ)
  | fileNotFound
deriving Repr, DecidableEq

/-- The temporary-file state: the id the next tempfile.NamedTemporaryFile call
will use, and the files currently existing on disk as pairs of id and number
of bytes written so far. -/
structure FS where
  nextId : ℕ
  files : List (ℕ × ℕ)
deriving Repr, DecidableEq

/-- A tempfile.NamedTemporaryFile(delete=False) call: creates a fresh empty
file on disk and returns its id. -/
def FS.alloc (fs : FS) : ℕ × FS :=
  (fs.nextId, { nextId := fs.nextId + 1, files := fs.files ++ [(fs.nextId, 0)] })

/-- Whether a file currently exists on disk (os.path.exists). -/
def FS.exists (fs : FS) (f : ℕ) : Bool := (fs.files.map Prod.fst).contains f

/-- os.remove on an existing file: drops it from the disk. -/
def FS.remove (fs : FS) (f : ℕ) : FS :=
  { fs with files := fs.files.filter (fun e => e.1 ≠ f) }

/-- tmp.write(chunk): appends the chunk's bytes to an existing file. -/
def FS.write (fs : FS) (f : ℕ) (n : ℕ) : FS :=
  { fs with files := fs.files.map (fun e => if e.1 = f then (e.1, e.2 + n) else e) }

/-- The while-loop of save_upload, src/main.py lines 37-47: reads chunks in
order, accumulates `size`, and after adding each chunk's length checks it
against MAX_UPLOAD_MB before writing the chunk.  When the limit is exceeded it
closes and removes the temp file and raises HTTPException 413 (line 46).
An upload is the list of the byte lengths of its non-empty reads. -/
def save_upload_loop (tmp : ℕ) (size : ℕ) (chunks : List ℕ) (fs : FS) :
    Except PyErr Unit × FS :=
  match chunks with
  | [] => (.ok (), fs)
  | c :: rest =>
    let size := size + c
    if size > MAX_UPLOAD_MB * 1024 * 1024 then
      (.error (.httpExc 413), fs.remove tmp)
    else
      save_upload_loop tmp size rest (fs.write tmp c)

/-- Function save_upload, src/main.py lines 32-54: allocates a temp file, runs
the buffering loop, and on success returns the temp file id.  Any exception
from the try-block is caught by the blanket handler of lines 51-54, which
closes the file, calls os.remove on its name — raising FileNotFoundError when
the 413 path already removed it — and otherwise raises HTTPException 400. -/
def save_upload (chunks : List ℕ) (fs : FS) : Except PyErr ℕ × FS :=
  let (tmp, fs1) := fs.alloc
  match save_upload_loop tmp 0 chunks fs1 with
  | (.ok _, fs2) => (.ok tmp, fs2)
  | (.error _, fs2) =>
    if fs2.exists tmp then (.error (.httpExc 400), fs2.remove tmp)
    else (.error .fileNotFound, fs2)

/-- What subprocess.run observed of the ffmpeg child process: either it
completed with an exit code, or the wall-clock timeout expired first. -/
inductive FfmpegOutcome
  | completed (exitCode : ℕ)
  | timedOut
deriving Repr, DecidableEq

/-- The ffmpeg command line built in convert_to_wav, src/main.py lines 61-68,
as a list of strings (`path` the input file, `out` the output file name). -/
def convert_cmd (path : String) (out : String) : List String :=
  ["ffmpeg", "-nostdin", "-hide_banner", "-loglevel", "error",
   "-y", "-safe", "1",
   "-i", path,
   "-t", toString (MAX_UPLOAD_DURATION_SEC + 1),
   "-ac", "1", "-ar", "16000",
   out]

/-- Function convert_to_wav, src/main.py lines 57-75: pre-allocates the output
temp file, then runs ffmpeg via subprocess.run with check=True and
timeout=SUBPROCESS_TIMEOUT.  subprocess.TimeoutExpired becomes HTTPException
408, a non-zero exit code (subprocess.CalledProcessError, since check=True)
becomes HTTPException 400, and otherwise the output file id is returned.  On
both error paths the pre-allocated output file is not removed. -/
def convert_to_wav (outcome : FfmpegOutcome) (fs : FS) : Except PyErr ℕ × FS :=
  let (out, fs1) := fs.alloc
  match outcome with
  | .timedOut => (.error (.httpExc 408), fs1)
  | .completed exitCode =>
    if exitCode ≠ 0 then (.error (.httpExc 400), fs1)
    else (.ok out, fs1)

/-- The finally-block of compare, src/main.py lines 160-164: for each of the
four path variables in order, when it was assigned and the file still exists,
remove it (ignoring removal failures). -/
def compare_cleanup (paths : List (Option ℕ)) (fs : FS) : FS :=
  paths.foldl
    (fun s p => match p with
      | some f => if s.exists f then s.remove f else s
      | none => s)
    fs

/-- Endpoint compare, src/main.py lines 142-164: stages both uploads, converts
both to WAV, then scores and analyzes; the finally-block removes whichever of
p1, p2, w1, w2 were assigned.  The two uploads are given as chunk-length
lists, the two ffmpeg invocations by their outcomes, and `scoringRaises`
covers an unexpected exception from the scoring/analysis calls of lines
151-153 (propagated to the framework as a 500). -/
def compare (chunks1 chunks2 : List ℕ) (oc1 oc2 : FfmpegOutcome)
    (scoringRaises : Bool) (fs : FS) : Except PyErr Unit × FS :=
  match save_upload chunks1 fs with
  | (.error e, fs) => (.error e, compare_cleanup [none, none, none, none] fs)
  | (.ok p1, fs) =>
    match save_upload chunks2 fs with
    | (.error e, fs) => (.error e, compare_cleanup [some p1, none, none, none] fs)
    | (.ok p2, fs) =>
      match convert_to_wav oc1 fs with
      | (.error e, fs) => (.error e, compare_cleanup [some p1, some p2, none, none] fs)
      | (.ok w1, fs) =>
        match convert_to_wav oc2 fs with
        | (.error e, fs) => (.error e, compare_cleanup [some p1, some p2, some w1, none] fs)
        | (.ok w2, fs) =>
          if scoringRaises then
            (.error (.httpExc 500), compare_cleanup [some p1, some p2, some w1, some w2] fs)
          else
            (.ok (), compare_cleanup [some p1, some p2, some w1, some w2] fs)

/-- Dot product np.dot(a, b) of two embedding vectors,
src/app/app.py line 27 and src/main.py line 83. -/
noncomputable def npDot {n : ℕ} (a b : Fin n → ℝ) : ℝ := ∑ i, a i * b i

/-- Euclidean norm np.linalg.norm(a),
src/app/app.py line 27 and src/main.py line 83. -/
noncomputable def npNorm {n : ℕ} (a : Fin n → ℝ) : ℝ := Real.sqrt (npDot a a)

/-- Function cosine_similarity, src/app/app.py lines 26-27, also inlined in
compare_wavs at src/main.py line 83: the plain float expression
np.dot(a, b) / (np.linalg.norm(a) * np.linalg.norm(b)) with no zero-norm
check.  When the denominator is 0 both operands of the division are 0 (a
zero-norm real vector is the zero vector), so IEEE float division yields NaN,
modelled as `none`; otherwise the finite quotient is `some`. -/
noncomputable def cosine_similarity {n : ℕ} (a b : Fin n → ℝ) : Option ℝ :=
  if npNorm a * npNorm b = 0 then none
  else some (npDot a b / (npNorm a * npNorm b))

/-- Python round(x, 4): nearest multiple of 1/10000, ties to even. -/
noncomputable def pyRound4 (x : ℝ) : ℝ :=
  (if Int.fract (x * 10000) = 1/2 then
    (if Even ⌊x * 10000⌋ then ⌊x * 10000⌋ else ⌊x * 10000⌋ + 1)
   else round (x * 10000) : ℤ) / 10000

/-- The JSON body built by compare_voices, src/app/app.py lines 35-38.
similarity_score is round(float(similarity), 4) — NaN stays NaN, hence the
Option.  same_speaker is the Python comparison similarity > 0.75, which is
False when similarity is NaN. -/
structure CompareVoicesResponse where
  similarity_score : Option ℝ
  same_speaker : Prop

/-- Endpoint compare_voices, src/app/app.py lines 29-40, after the two
embeddings have been extracted: computes cosine_similarity and assembles the
response of lines 35-38. -/
noncomputable def compare_voices {n : ℕ} (embed1 embed2 : Fin n → ℝ) :
    CompareVoicesResponse :=
  let similarity := cosine_similarity embed1 embed2
  { similarity_score := similarity.map pyRound4
    same_speaker := match similarity with
      | some s => s > 0.75
      | none => False }

/-- C1: for every AcousticMetrics instance, rate_suspicion flags exactly the
three spec rules (speech_ratio below 0.40 or above 0.95; pitch_variation below
10; energy_variation below 1e-5), and the suspicion level is determined solely
by the flag count: Low iff 0 flags, Medium iff exactly 1, High iff 2 or more,
across all eight rule combinations. -/
theorem rate_suspicion_flags_and_level (m : AcousticMetrics) :
    ("Unnatural speech/pause ratio" ∈ (rate_suspicion m).flags
        ↔ (m.speech_ratio < 0.4 ∨ m.speech_ratio > 0.95))
    ∧ ("Monotone pitch (possible synthetic)" ∈ (rate_suspicion m).flags
        ↔ m.pitch_variation < 10)
    ∧ ("Flat energy (possible normalization)" ∈ (rate_suspicion m).flags
        ↔ m.energy_variation < 1e-5)
    ∧ ((rate_suspicion m).suspicion = "Low" ↔ (rate_suspicion m).flags.length = 0)
    ∧ ((rate_suspicion m).suspicion = "Medium" ↔ (rate_suspicion m).flags.length = 1)
    ∧ ((rate_suspicion m).suspicion = "High" ↔ 2 ≤ (rate_suspicion m).flags.length) := by
  by_cases h1 : m.speech_ratio < 0.4 ∨ m.speech_ratio > 0.95 <;>
    by_cases h2 : m.pitch_variation < 10 <;>
      by_cases h3 : m.energy_variation < 1e-5 <;>
        simp [rate_suspicion, h1, h2, h3]

/-- Helper: mapping a write-update over entries none of which carry the
written file's id leaves them unchanged. -/
lemma map_write_fresh (A : List (ℕ × ℕ)) (n c : ℕ) (h : ∀ e ∈ A, e.1 ≠ n) :
    A.map (fun e => if e.1 = n then (e.1, e.2 + c) else e) = A := by
  induction A with
  | nil => rfl
  | cons a rest ih =>
    have ha : a.1 ≠ n := h a (by simp)
    simp [ha, ih (fun e he => h e (by simp [he]))]

/-- Helper: a single write to the freshly appended file bumps only its size. -/
lemma write_fresh (A : List (ℕ × ℕ)) (m n s c : ℕ) (h : ∀ e ∈ A, e.1 ≠ n) :
    FS.write ⟨m, A ++ [(n, s)]⟩ n c = ⟨m, A ++ [(n, s + c)]⟩ := by
  simp [FS.write, map_write_fresh A n c h]

/-- Helper: folding writes of a chunk list over the freshly appended file
accumulates exactly the chunk-length sum. -/
lemma foldl_write_fresh (l : List ℕ) (A : List (ℕ × ℕ)) (m n s : ℕ)
    (h : ∀ e ∈ A, e.1 ≠ n) :
    l.foldl (fun st c => FS.write st n c) ⟨m, A ++ [(n, s)]⟩
      = ⟨m, A ++ [(n, s + l.sum)]⟩ := by
  induction l generalizing s with
  | nil => simp
  | cons c rest ih =>
    rw [List.foldl_cons, write_fresh A m n s c h, ih (s + c)]
    simp [List.sum_cons, Nat.add_assoc]

/-- Helper: removing the fresh file restores the original disk listing. -/
lemma remove_fresh (A : List (ℕ × ℕ)) (m n s : ℕ) (h : ∀ e ∈ A, e.1 ≠ n) :
    FS.remove ⟨m, A ++ [(n, s)]⟩ n = ⟨m, A⟩ := by
  simp only [FS.remove, List.filter_append]
  rw [List.filter_eq_self.mpr, List.filter_cons]
  · simp
  · intro e he
    simpa using h e he

/-- Helper: the fresh file id is absent after its removal. -/
lemma exists_fresh_false (A : List (ℕ × ℕ)) (m n : ℕ) (h : ∀ e ∈ A, e.1 ≠ n) :
    FS.exists ⟨m, A⟩ n = false := by
  have hmem : n ∉ A.map Prod.fst := by
    intro hmem
    obtain ⟨e, he, hfst⟩ := List.mem_map.mp hmem
    exact h e he hfst
  simpa [FS.exists] using hmem

/-- Helper: while the running size stays within the limit, the loop writes
every chunk and succeeds. -/
lemma save_upload_loop_ok (chunks : List ℕ) (tmp : ℕ) (fs : FS) :
    ∀ size : ℕ, size + chunks.sum ≤ MAX_UPLOAD_MB * 1024 * 1024 →
    save_upload_loop tmp size chunks fs
      = (.ok (), chunks.foldl (fun st c => FS.write st tmp c) fs) := by
  induction chunks generalizing fs with
  | nil => intro size _; simp [save_upload_loop]
  | cons c rest ih =>
    intro size h
    have hsum : size + c + rest.sum ≤ MAX_UPLOAD_MB * 1024 * 1024 := by
      simp [List.sum_cons] at h; omega
    have hc : ¬ (size + c > MAX_UPLOAD_MB * 1024 * 1024) := by omega
    simp only [save_upload_loop, if_neg hc, List.foldl_cons]
    exact ih (fs.write tmp c) (size + c) hsum

/-- Helper: when the total exceeds the limit, the loop raises 413 at the first
chunk whose running size exceeds it, having written exactly the chunks before
that one, and removes the temp file before raising. -/
lemma save_upload_loop_err (chunks : List ℕ) (tmp : ℕ) (fs : FS) :
    ∀ size : ℕ, size ≤ MAX_UPLOAD_MB * 1024 * 1024 →
    MAX_UPLOAD_MB * 1024 * 1024 < size + chunks.sum →
    ∃ k, size + (chunks.take k).sum ≤ MAX_UPLOAD_MB * 1024 * 1024
      ∧ MAX_UPLOAD_MB * 1024 * 1024 < size + (chunks.take (k + 1)).sum
      ∧ save_upload_loop tmp size chunks fs
        = (.error (.httpExc 413),
           FS.remove ((chunks.take k).foldl (fun st c => FS.write st tmp c) fs) tmp) := by
  induction chunks generalizing fs with
  | nil =>
    intro size hle hgt
    simp only [List.sum_nil, Nat.add_zero] at hgt
    omega
  | cons c rest ih =>
    intro size hle hgt
    by_cases hc : size + c > MAX_UPLOAD_MB * 1024 * 1024
    · refine ⟨0, by simpa using hle, by simpa using hc, ?_⟩
      simp [save_upload_loop, hc]
    · have hrec := ih (fs.write tmp c) (size + c) (by omega)
        (by simp [List.sum_cons] at hgt; omega)
      obtain ⟨k, hk1, hk2, hk3⟩ := hrec
      refine ⟨k + 1, ?_, ?_, ?_⟩
      · simpa [List.take_cons, List.sum_cons, Nat.add_assoc] using hk1
      · simpa [List.take_cons, List.sum_cons, Nat.add_assoc] using hk2
      · simp only [save_upload_loop, if_neg hc, List.take_cons, List.foldl_cons]
        exact hk3

/-- C2 counterexample: an upload of byte length 0 (no chunks read) is staged
successfully — save_upload returns the temp file id with an empty file on
disk and raises nothing, so no EmptyInputError exists in the code. -/
theorem save_upload_empty_input_accepted :
    save_upload [] { nextId := 0, files := [] }
      = (.ok 0, { nextId := 1, files := [(0, 0)] }) := by
  rfl

/-- C2 amended: save_upload never rejects an empty upload (byte length 0 is
staged successfully); the 20 MB size check is performed incrementally while
buffering — when the running size first exceeds MAX_UPLOAD_MB * 1024 * 1024
the temp file is removed and HTTPException 413 is raised before the
overflowing chunk is written and before the rest of the body is read — but
the blanket exception handler of save_upload then calls os.remove on the
already-removed file, so the oversized upload is rejected with
FileNotFoundError (surfacing as an internal error), not with the 413
payload-too-large response.  `hfresh` says the allocator's next id is not
already on disk, which every reachable state satisfies. -/
theorem save_upload_size_behavior (chunks : List ℕ) (fs : FS)
    (hfresh : ∀ e ∈ fs.files, e.1 ≠ fs.nextId) :
    (chunks.sum ≤ MAX_UPLOAD_MB * 1024 * 1024 →
      save_upload chunks fs
        = (.ok fs.nextId,
           { nextId := fs.nextId + 1, files := fs.files ++ [(fs.nextId, chunks.sum)] }))
    ∧ (MAX_UPLOAD_MB * 1024 * 1024 < chunks.sum →
      save_upload chunks fs = (.error .fileNotFound, { nextId := fs.nextId + 1, files := fs.files })
      ∧ ∃ k, (chunks.take k).sum ≤ MAX_UPLOAD_MB * 1024 * 1024
          ∧ MAX_UPLOAD_MB * 1024 * 1024 < (chunks.take (k + 1)).sum
          ∧ save_upload_loop fs.nextId 0 chunks (fs.alloc).2
            = (.error (.httpExc 413), { nextId := fs.nextId + 1, files := fs.files })) := by
  constructor
  · intro hle
    have hloop := save_upload_loop_ok chunks fs.nextId (fs.alloc).2 0 (by omega)
    have hfold := foldl_write_fresh chunks fs.files (fs.nextId + 1) fs.nextId 0 hfresh
    simp only [save_upload, FS.alloc] at *
    rw [hloop, hfold]
    simp
  · intro hgt
    have hloop := save_upload_loop_err chunks fs.nextId (fs.alloc).2 0 (by omega) (by omega)
    obtain ⟨k, hk1, hk2, hk3⟩ := hloop
    have hfold := foldl_write_fresh (chunks.take k) fs.files (fs.nextId + 1) fs.nextId 0 hfresh
    simp only [FS.alloc] at hk3 hfold
    rw [hfold] at hk3
    have hrm := remove_fresh fs.files (fs.nextId + 1) fs.nextId (0 + (chunks.take k).sum) hfresh
    rw [hrm] at hk3
    have hex := exists_fresh_false fs.files (fs.nextId + 1) fs.nextId hfresh
    refine ⟨?_, k, by omega, by omega, by simpa [FS.alloc] using hk3⟩
    simp only [save_upload, FS.alloc]
    rw [hk3]
    simp [hex]

/-- C2 witness: the amended theorem applied to a 5-byte upload (staged with
its full content) and to a single 21 MB chunk (rejected incrementally, ending
in FileNotFoundError with nothing left on disk). -/
theorem save_upload_size_behavior_witness :
    save_upload [5] { nextId := 0, files := [] }
      = (.ok 0, { nextId := 1, files := [(0, 5)] })
    ∧ (save_upload [21 * 1024 * 1024] { nextId := 0, files := [] }
      = (.error .fileNotFound, { nextId := 1, files := [] })
      ∧ ∃ k, ([21 * 1024 * 1024].take k).sum ≤ MAX_UPLOAD_MB * 1024 * 1024
          ∧ MAX_UPLOAD_MB * 1024 * 1024 < ([21 * 1024 * 1024].take (k + 1)).sum
          ∧ save_upload_loop 0 0 [21 * 1024 * 1024] (FS.alloc { nextId := 0, files := [] }).2
            = (.error (.httpExc 413), { nextId := 1, files := [] })) :=
  ⟨by simpa using
      (save_upload_size_behavior [5] { nextId := 0, files := [] } (by simp)).1 (by decide),
   (save_upload_size_behavior [21 * 1024 * 1024] { nextId := 0, files := [] }
      (by simp)).2 (by decide)⟩

/-- C5: evaluating the orchestrator at a failing input.  Both uploads are
valid (5 bytes each) but the first ffmpeg conversion times out: the request
fails with HTTPException 408 and the temp file pre-allocated by
convert_to_wav for its output (id 2) is still on disk after the
finally-block, because convert_to_wav raised before returning its name, so
the cleanup loop never saw it.  The claim that every exit path leaves zero
artifacts is violated on the conversion-timeout and conversion-failure
paths. -/
theorem compare_timeout_leaks_converted_tempfile :
    compare [5] [5] FfmpegOutcome.timedOut (FfmpegOutcome.completed 0) false
        { nextId := 0, files := [] }
      = (.error (.httpExc 408), { nextId := 3, files := [(2, 0)] }) := by
  rfl

/-- C7: the normalizer contract.  SUBPROCESS_TIMEOUT is 120 seconds; the
ffmpeg command line carries the decoded-duration cap as the adjacent
arguments "-t" "61" (MAX_UPLOAD_DURATION_SEC + 1); and for every invocation
the result is HTTPException 408 exactly on timeout, HTTPException 400 exactly
on a non-zero exit status, and the converted output exactly on exit status
0. -/
theorem convert_to_wav_contract :
    SUBPROCESS_TIMEOUT = 120
    ∧ toString (MAX_UPLOAD_DURATION_SEC + 1) = "61"
    ∧ (∀ p o : String, ∃ l₁ l₂ : List String,
        convert_cmd p o = l₁ ++ ["-t", "61"] ++ l₂)
    ∧ (∀ (oc : FfmpegOutcome) (fs : FS),
        ((convert_to_wav oc fs).1 = .error (.httpExc 408) ↔ oc = .timedOut)
        ∧ ((convert_to_wav oc fs).1 = .error (.httpExc 400)
            ↔ ∃ c, c ≠ 0 ∧ oc = .completed c)
        ∧ ((∃ w, (convert_to_wav oc fs).1 = .ok w) ↔ oc = .completed 0)) := by
  refine ⟨rfl, rfl, ?_, ?_⟩
  · intro p o
    exact ⟨["ffmpeg", "-nostdin", "-hide_banner", "-loglevel", "error",
            "-y", "-safe", "1", "-i", p],
           ["-ac", "1", "-ar", "16000", o], rfl⟩
  · intro oc fs
    cases oc with
    | timedOut => simp [convert_to_wav]
    | completed c =>
      by_cases hc : c = 0
      · subst hc
        simp [convert_to_wav]
      · simp [convert_to_wav, hc]

/-- C4: the speech/pause ratio invariant of analyze_audio.  When the computed
duration is positive the two ratios sum to exactly 1, hence within the 1e-6
tolerance; when the duration is 0 both ratios are exactly 0. -/
theorem analyze_audio_ratio_invariant (duration sr : ℚ) (intervals : List (ℕ × ℕ))
    (pitchOutcome : Option (ℚ × ℚ)) (rms : List ℚ) :
    (0 < duration →
      |((analyze_audio duration sr intervals pitchOutcome rms).1.speech_ratio
        + (analyze_audio duration sr intervals pitchOutcome rms).1.pause_ratio) - 1|
        ≤ 1e-6)
    ∧ (duration = 0 →
      (analyze_audio duration sr intervals pitchOutcome rms).1.speech_ratio = 0
      ∧ (analyze_audio duration sr intervals pitchOutcome rms).1.pause_ratio = 0) := by
  constructor
  · intro h
    have hne : duration ≠ 0 := ne_of_gt h
    simp only [analyze_audio, if_pos h]
    rw [div_add_div_same]
    have hd : ∀ T : ℚ, T + (duration - T) = duration := fun T => by ring
    rw [hd _, div_self hne]
    norm_num
  · intro h
    simp [analyze_audio, h]

/-- C4 witness: the invariant at a 2-second sample with one voiced second,
and at a 0-second sample. -/
theorem analyze_audio_ratio_invariant_witness :
    |((analyze_audio 2 16000 [(0, 16000)] (some (120, 30)) [1, 2, 3]).1.speech_ratio
      + (analyze_audio 2 16000 [(0, 16000)] (some (120, 30)) [1, 2, 3]).1.pause_ratio) - 1|
      ≤ 1e-6
    ∧ (analyze_audio 0 16000 [] none []).1.speech_ratio = 0
    ∧ (analyze_audio 0 16000 [] none []).1.pause_ratio = 0 :=
  ⟨(analyze_audio_ratio_invariant 2 16000 [(0, 16000)] (some (120, 30)) [1, 2, 3]).1
      (by norm_num),
   ((analyze_audio_ratio_invariant 0 16000 [] none []).2 rfl).1,
   ((analyze_audio_ratio_invariant 0 16000 [] none []).2 rfl).2⟩

/-- Helper: any metrics with pitch_variation below 10 gets the monotone-pitch
flag, so the flag list is nonempty and the suspicion level cannot be Low. -/
lemma rate_suspicion_low_pitch_not_low (m : AcousticMetrics)
    (h : m.pitch_variation < 10) :
    "Monotone pitch (possible synthetic)" ∈ (rate_suspicion m).flags
    ∧ (rate_suspicion m).suspicion ≠ "Low" := by
  by_cases h1 : m.speech_ratio < 0.4 ∨ m.speech_ratio > 0.95 <;>
    by_cases h3 : m.energy_variation < 1e-5 <;>
      simp [rate_suspicion, h, h1, h3]

/-- C9: when the pitch estimator raises (pitchOutcome is none), analyze_audio
substitutes mean_pitch = 0 and pitch_variation = 0 instead of propagating the
failure, and the resulting assessment therefore always carries the
monotone-pitch flag and is never Low. -/
theorem analyze_audio_pitch_failure_never_low (duration sr : ℚ)
    (intervals : List (ℕ × ℕ)) (rms : List ℚ) :
    (analyze_audio duration sr intervals none rms).1.mean_pitch = 0
    ∧ (analyze_audio duration sr intervals none rms).1.pitch_variation = 0
    ∧ "Monotone pitch (possible synthetic)"
        ∈ (analyze_audio duration sr intervals none rms).2.flags
    ∧ (analyze_audio duration sr intervals none rms).2.suspicion ≠ "Low" := by
  have hpair : (analyze_audio duration sr intervals none rms).2
      = rate_suspicion (analyze_audio duration sr intervals none rms).1 := rfl
  have hpv : (analyze_audio duration sr intervals none rms).1.pitch_variation = 0 := rfl
  obtain ⟨hmem, hlow⟩ :=
    rate_suspicion_low_pitch_not_low (analyze_audio duration sr intervals none rms).1
      (by rw [hpv]; norm_num)
  exact ⟨rfl, hpv, by rw [hpair]; exact hmem, by rw [hpair]; exact hlow⟩

/-- C6 counterexample: at similarity 0.8 the overlay maps to the literal label
of src/main.py line 270, which is the string of the middle tier as written in
the code, not the string named by the claim. -/
theorem overlay_verdict_label_counterexample :
    overlay_verdict 0.8 = "⚠️ Voice match" ∧ overlay_verdict 0.8 ≠ "possible match" := by
  have h1 : ¬ ((0.8 : ℚ) > 0.9) := by norm_num
  have h2 : (0.8 : ℚ) > 0.7 := by norm_num
  simp only [overlay_verdict, if_neg h1, if_pos h2]
  exact ⟨trivial, by decide⟩

/-- C6 amended: the verdict tiers follow the claimed thresholds with inclusive
upper bounds — similarity above 0.9 gives the great-match label, above 0.7 up
to and including 0.9 gives the middle label, and at or below 0.7 gives the
no-match label — but the three labels are the code's literal strings
(the middle one reads Voice match, not possible match). -/
theorem overlay_verdict_tiers (s : ℚ) :
    (overlay_verdict s = "✅ Great match" ↔ s > 0.9)
    ∧ (overlay_verdict s = "⚠️ Voice match" ↔ 0.7 < s ∧ s ≤ 0.9)
    ∧ (overlay_verdict s = "❌ No match" ↔ s ≤ 0.7) := by
  by_cases h1 : s > 0.9
  · have h2 : (0.7 : ℚ) < s := lt_trans (by norm_num) h1
    simp only [overlay_verdict, if_pos h1]
    refine ⟨by simp [h1], ?_, ?_⟩
    · constructor
      · intro h; exact absurd h (by decide)
      · intro h; exact absurd h1 (not_lt.mpr h.2)
    · constructor
      · intro h; exact absurd h (by decide)
      · intro h; exact absurd h2 (not_lt.mpr h)
  · by_cases h2 : s > 0.7
    · simp only [overlay_verdict, if_neg h1, if_pos h2]
      refine ⟨?_, by simp [h2, not_lt.mp h1], ?_⟩
      · constructor
        · intro h; exact absurd h (by decide)
        · intro h; exact absurd h h1
      · constructor
        · intro h; exact absurd h (by decide)
        · intro h; exact absurd h2 (not_lt.mpr h)
    · simp only [overlay_verdict, if_neg h1, if_neg h2]
      refine ⟨?_, ?_, by simp [not_lt.mp h2]⟩
      · constructor
        · intro h; exact absurd h (by decide)
        · intro h; exact absurd h h1
      · constructor
        · intro h; exact absurd h (by decide)
        · intro h; exact absurd h.1 h2

/-- C3 counterexample: on zero-norm embeddings (here the zero vector, the only
real vector of norm 0) the scorer returns the NaN value of the float division
0/0 — modelled as none — rather than failing: no DegenerateEmbeddingError
exists anywhere in the code, and the NaN propagates to the caller. -/
theorem cosine_similarity_zero_norm_returns_nan :
    cosine_similarity (fun _ : Fin 2 => (0 : ℝ)) (fun _ : Fin 2 => (0 : ℝ)) = none := by
  simp [cosine_similarity, npNorm, npDot]

/-- C3 amended: the scorer performs no zero-norm check; on a zero-norm
embedding it returns NaN (the claim's DegenerateEmbeddingError does not
exist).  For every pair of embeddings of nonzero norm the similarity is a
real number in the interval from -1 to 1 and is never NaN. -/
theorem cosine_similarity_nonzero_bounded {n : ℕ} (a b : Fin n → ℝ)
    (ha : npNorm a ≠ 0) (hb : npNorm b ≠ 0) :
    ∃ s, cosine_similarity a b = some s ∧ -1 ≤ s ∧ s ≤ 1 := by
  have hdenne : npNorm a * npNorm b ≠ 0 := mul_ne_zero ha hb
  have hpos : 0 < npNorm a * npNorm b :=
    lt_of_le_of_ne (mul_nonneg (Real.sqrt_nonneg _) (Real.sqrt_nonneg _)) (Ne.symm hdenne)
  have hcs : npDot a b ≤ npNorm a * npNorm b := by
    have h := Real.sum_mul_le_sqrt_mul_sqrt Finset.univ a b
    simpa [npDot, npNorm, sq] using h
  have hcs' : -(npNorm a * npNorm b) ≤ npDot a b := by
    have h := Real.sum_mul_le_sqrt_mul_sqrt Finset.univ (fun i => -(a i)) b
    simp only [neg_mul, Finset.sum_neg_distrib, neg_sq] at h
    have h2 : -(∑ i, a i * b i) ≤ npNorm a * npNorm b := by
      simpa [npNorm, npDot, sq] using h
    have h3 := neg_le_neg h2
    simpa [npDot] using h3
  refine ⟨npDot a b / (npNorm a * npNorm b), by simp [cosine_similarity, hdenne], ?_, ?_⟩
  · rw [le_div_iff₀ hpos]
    linarith
  · rw [div_le_one hpos]
    exact hcs

/-- C3 witness: the amended theorem at the one-dimensional all-ones
embeddings, whose norm is 1. -/
theorem cosine_similarity_nonzero_bounded_witness :
    npNorm (fun _ : Fin 1 => (1 : ℝ)) ≠ 0
    ∧ ∃ s, cosine_similarity (fun _ : Fin 1 => (1 : ℝ)) (fun _ : Fin 1 => (1 : ℝ))
        = some s ∧ -1 ≤ s ∧ s ≤ 1 := by
  have h : npNorm (fun _ : Fin 1 => (1 : ℝ)) = 1 := by
    simp [npNorm, npDot]
  exact ⟨by rw [h]; norm_num,
         cosine_similarity_nonzero_bounded _ _ (by rw [h]; norm_num) (by rw [h]; norm_num)⟩

/-- C8: cosine similarity is symmetric under swapping the two inputs — the
dot product and the product of the norms are both commutative, so the score
(including the NaN case) is identical in either order. -/
theorem cosine_similarity_symmetric {n : ℕ} (a b : Fin n → ℝ) :
    cosine_similarity a b = cosine_similarity b a := by
  have hdot : npDot a b = npDot b a := by
    unfold npDot
    exact Finset.sum_congr rfl (fun i _ => mul_comm _ _)
  have hmul : npNorm a * npNorm b = npNorm b * npNorm a := mul_comm _ _
  unfold cosine_similarity
  rw [hdot, hmul]

/-- C10: the alternate endpoint compare_voices reports same_speaker exactly
when the cosine similarity is strictly greater than 0.75 (false when the
similarity is NaN), and returns the similarity score rounded to 4 decimal
places. -/
theorem compare_voices_threshold {n : ℕ} (embed1 embed2 : Fin n → ℝ) :
    ((compare_voices embed1 embed2).same_speaker
      ↔ ∃ s, cosine_similarity embed1 embed2 = some s ∧ s > 0.75)
    ∧ (compare_voices embed1 embed2).similarity_score
        = (cosine_similarity embed1 embed2).map pyRound4 := by
  constructor
  · cases hcs : cosine_similarity embed1 embed2 with
    | none => simp [compare_voices, hcs]
    | some s => simp [compare_voices, hcs]
  · rfl
